import Mathlib

/-!
Verification of the llm-gateway key-selection and routing engine.

Strings from the TypeScript source are modelled as lists of characters
(`Str`).  JavaScript dates enter the key manager only through the
day-granularity comparison `key.resetDate < today`, so calendar dates are
modelled as integers (day numbers).  JavaScript numbers that the code uses
as integers (priorities, usage counters, daily limits) are modelled as
`Int`; the remaining-quota value `dailyLimit - usedToday`, which the
exhaust-first comparator treats as infinite when `dailyLimit` is unset, is
modelled in `WithTop Int`.

JavaScript `Array.prototype.sort` is required by the ECMAScript
specification to be stable, and a comparator result of NaN (which arises
as `Infinity - Infinity` for two unlimited keys) is coerced to `+0`, i.e.
the two elements compare as equal and keep their relative order.  A stable
sort with respect to a total comparator is a unique function of the input,
so it is embedded here as a stable insertion sort (`sortLe`).
-/

/-- Characters of a TypeScript string. -/
abbrev Str : Type := List Char

/-- Coerce a Lean string literal into the `Str` model. -/
def str (s : String) : Str := s.data

-- ===========================================================================
-- Data model (src/types/index.ts)
-- ===========================================================================

/-- Mirror of the TypeScript interface ApiKeyInfo (src/types/index.ts). -/
structure ApiKeyInfo where
  id : Str
  provider : Str
  apiKey : Str
  name : Option Str := none
  priority : Int
  enabled : Bool
  allowedModels : List Str
  defaultModel : Str
  dailyLimit : Option Int
  usedToday : Int
  resetDate : Int
  deriving DecidableEq, Repr

/-- Mirror of the TypeScript interface RoutingContext (src/types/index.ts). -/
structure RoutingContext where
  requestedModel : Option Str
  requestedProvider : Str
  allowedProviders : Option (List Str) := none
  allowedPriorities : Option (List Int) := none
  deriving DecidableEq, Repr

/-- Mirror of the TypeScript interface KeySelectionResult. -/
structure KeySelectionResult where
  key : ApiKeyInfo
  resolvedModel : Str
  deriving DecidableEq, Repr

/-- The key-selection strategies (src/types/index.ts). -/
inductive KeySelectionStrategy where
  | exhaustFirst
  | roundRobin
  deriving DecidableEq, Repr

/-- The structured gateway error classes of src/types/index.ts.  Every
constructor corresponds to one subclass of LLMGatewayError. -/
inductive GatewayError where
  | noEligibleKey (model : Option Str) (provider : Option Str)
  | providerError (provider : Str) (message : Str) (statusCode : Nat)
  | modelNotSupported (model : Str) (provider : Str)
  | rateLimit (keyId : Str) (limit : Int)
  deriving DecidableEq, Repr

/-- The statusCode each error subclass passes to the LLMGatewayError
constructor (src/types/index.ts). -/
def GatewayError.statusCode : GatewayError → Nat
  | .noEligibleKey _ _ => 429
  | .providerError _ _ s => s
  | .modelNotSupported _ _ => 400
  | .rateLimit _ _ => 429

/-- The message text each error subclass builds (src/types/index.ts). -/
def GatewayError.message : GatewayError → Str
  | .noEligibleKey m p =>
      str "No eligible API key found" ++
        (match m with
         | some mm => str " for model: " ++ mm
         | none => []) ++
        (match p with
         | some pp => str " with provider: " ++ pp
         | none => [])
  | .providerError prov msg _ => str "Provider " ++ prov ++ str " error: " ++ msg
  | .modelNotSupported m prov =>
      str "Model " ++ m ++ str " is not supported by provider " ++ prov
  | .rateLimit _ limit => str "Daily limit of " ++ str (toString limit) ++
      str " requests exceeded for key"

-- ===========================================================================
-- Stable sort (model of Array.prototype.sort with a total comparator)
-- ===========================================================================

/-- Insert `x` into `l` before the first element `y` with `le x y`.
Processing the original list from the right, this yields the stable sort
mandated for Array.prototype.sort. -/
def insertLe {α : Type} (le : α → α → Bool) (x : α) : List α → List α
  | [] => [x]
  | y :: ys => if le x y then x :: y :: ys else y :: insertLe le x ys

/-- Stable insertion sort with respect to the total comparator `le`. -/
def sortLe {α : Type} (le : α → α → Bool) : List α → List α
  | [] => []
  | x :: xs => insertLe le x (sortLe le xs)

-- ===========================================================================
-- Key Manager (src/services/key-manager.ts)
-- ===========================================================================

/-- The where-clause of the candidate query in KeyManager.selectKey
(src/services/key-manager.ts lines 39-56): enabled, optional provider
allow-list, optional priority allow-list, and the requested provider
unless it is the sentinel auto. -/
def candidateFilter (ctx : RoutingContext) (k : ApiKeyInfo) : Bool :=
  k.enabled
    && (match ctx.allowedProviders with
        | some ps => if ps.isEmpty then true else ps.contains k.provider
        | none => true)
    && (match ctx.allowedPriorities with
        | some ps => if ps.isEmpty then true else ps.contains k.priority
        | none => true)
    && (if ctx.requestedProvider == str "auto" then true
        else k.provider == ctx.requestedProvider)

/-- The orderBy clause of the candidate query: priority ascending, then
usedToday ascending. -/
def keyOrderLe (a b : ApiKeyInfo) : Bool :=
  decide (a.priority < b.priority)
    || (a.priority == b.priority && decide (a.usedToday ≤ b.usedToday))

/-- The candidate list returned by prisma.llmApiKey.findMany for a routing
context: the stored keys passing the where-clause, listed by priority
ascending then usedToday ascending. -/
def candidatesOf (ctx : RoutingContext) (store : List ApiKeyInfo) : List ApiKeyInfo :=
  sortLe keyOrderLe (store.filter (candidateFilter ctx))

/-- The in-place update applied to a stale key by the lazy daily reset. -/
def resetKey (today : Int) (k : ApiKeyInfo) : ApiKeyInfo :=
  { k with usedToday := 0, resetDate := today }

/-- The updatedKeys list built by KeyManager.resetDailyUsageIfNeeded
(src/services/key-manager.ts lines 125-132): every candidate whose
resetDate precedes today is replaced by its reset copy. -/
def resetView (today : Int) (keys : List ApiKeyInfo) : List ApiKeyInfo :=
  keys.map (fun k => if decide (k.resetDate < today) then resetKey today k else k)

/-- The ids collected into keysToReset by resetDailyUsageIfNeeded. -/
def staleIdsOf (today : Int) (keys : List ApiKeyInfo) : List Str :=
  (keys.filter (fun k => decide (k.resetDate < today))).map (fun k => k.id)

/-- The batch updateMany issued by resetDailyUsageIfNeeded: every stored
key whose id is in `ids` has usedToday set to 0 and resetDate set to
today. -/
def applyBatchReset (today : Int) (ids : List Str) (store : List ApiKeyInfo) :
    List ApiKeyInfo :=
  store.map (fun k => if ids.contains k.id then resetKey today k else k)

/-- The quota clause of KeyManager.filterEligibleKeys: a key with a set
dailyLimit is dropped when usedToday has reached it. -/
def keyQuotaOk (k : ApiKeyInfo) : Bool :=
  match k.dailyLimit with
  | some limit => decide (k.usedToday < limit)
  | none => true

/-- The model clause of KeyManager.filterEligibleKeys
(src/services/key-manager.ts lines 161-176): the allow-list is empty, or
some entry equals the requested model, or equals the exact string
consisting of one asterisk, or ends with an asterisk and its remainder is
a prefix of the requested model. -/
def modelAllowedForKey (k : ApiKeyInfo) (requestedModel : Str) : Bool :=
  k.allowedModels.isEmpty
    || k.allowedModels.any (fun allowed =>
        allowed == requestedModel
          || allowed == str "*"
          || (allowed.getLast? == some '*'
                && allowed.dropLast.isPrefixOf requestedModel))

/-- KeyManager.filterEligibleKeys: keep keys passing the quota clause and,
when a model was requested, the model clause. -/
def filterEligibleKeys (keys : List ApiKeyInfo) (requestedModel : Option Str) :
    List ApiKeyInfo :=
  keys.filter (fun k =>
    keyQuotaOk k
      && (match requestedModel with
          | some m => modelAllowedForKey k m
          | none => true))

/-- The distinct priorities of `keys`, ascending: KeyManager
groupKeysByPriority builds a Map keyed by priority and sorts its entries
numerically. -/
def groupPriorities (keys : List ApiKeyInfo) : List Int :=
  sortLe (fun a b : Int => decide (a ≤ b)) ((keys.map (fun k => k.priority)).dedup)

/-- KeyManager.groupKeysByPriority: the priority groups in ascending
priority order, each group listing its keys in the incoming order. -/
def groupKeysByPriority (keys : List ApiKeyInfo) : List (Int × List ApiKeyInfo) :=
  (groupPriorities keys).map (fun p => (p, keys.filter (fun k => k.priority == p)))

-- ===========================================================================
-- Round-robin counter (src/utils/redis.ts)
-- ===========================================================================

/-- The shared round-robin counter store: an association list from
(provider, priority) to the current counter value, newest binding first
(absent keys read as 0, the state of a redis counter before its first
INCR). -/
abbrev RRStore : Type := List ((Str × Int) × Nat)

/-- Read the counter for a (provider, priority) pair. -/
def rrGet (s : RRStore) (key : Str × Int) : Nat :=
  match s.find? (fun e => e.1 == key) with
  | some e => e.2
  | none => 0

/-- Overwrite the counter for a (provider, priority) pair. -/
def rrSet (s : RRStore) (key : Str × Int) (v : Nat) : RRStore :=
  (key, v) :: s

/-- getNextRoundRobinIndex (src/utils/redis.ts lines 107-120): atomically
increment the counter for (provider, priority) and return the new value
minus one, modulo the group size. -/
def getNextRoundRobinIndex (s : RRStore) (provider : Str) (priority : Int)
    (totalKeys : Nat) : Nat × RRStore :=
  let key := (provider, priority)
  let current := rrGet s key + 1
  ((current - 1) % totalKeys, rrSet s key current)

-- ===========================================================================
-- Strategy selection within a priority group
-- ===========================================================================

/-- The remaining quota the exhaust-first comparator ranks keys by:
dailyLimit - usedToday, infinite when dailyLimit is unset. -/
def remainingQuota (k : ApiKeyInfo) : WithTop Int :=
  match k.dailyLimit with
  | none => ⊤
  | some limit => ((limit - k.usedToday : Int) : WithTop Int)

/-- The comparator of KeyManager.selectExhaustFirst, as an ordering
predicate: `a` may precede `b` exactly when the JavaScript comparator
(bRemaining - aRemaining, NaN coerced to 0) is non-positive, i.e. when the
remaining quota of `a` is at least that of `b`. -/
def exhaustLe (a b : ApiKeyInfo) : Bool :=
  decide (remainingQuota b ≤ remainingQuota a)

/-- KeyManager.selectExhaustFirst: stably sort the group by remaining
quota descending and take the first element. -/
def selectExhaustFirst (keys : List ApiKeyInfo) : Option ApiKeyInfo :=
  (sortLe exhaustLe keys).head?

/-- KeyManager.selectKeyFromGroup: empty groups yield no key; otherwise
exhaust-first picks by remaining quota and round-robin indexes the group
by the shared counter (using the provider of the group's first key). -/
def selectKeyFromGroup (keys : List ApiKeyInfo) (priority : Int)
    (strategy : KeySelectionStrategy) (rr : RRStore) :
    Option ApiKeyInfo × RRStore :=
  match keys with
  | [] => (none, rr)
  | k0 :: rest =>
    match strategy with
    | .exhaustFirst => (selectExhaustFirst (k0 :: rest), rr)
    | .roundRobin =>
      let res := getNextRoundRobinIndex rr k0.provider priority (k0 :: rest).length
      ((k0 :: rest)[res.1]?, res.2)

/-- The group loop of KeyManager.selectKey (lines 82-109): try each
priority group in ascending order and return the first selected key. -/
def selectFromGroups (strategy : KeySelectionStrategy) (rr : RRStore) :
    List (Int × List ApiKeyInfo) → Option (ApiKeyInfo × RRStore)
  | [] => none
  | (p, g) :: rest =>
    match selectKeyFromGroup g p strategy rr with
    | (some k, rr2) => some (k, rr2)
    | (none, rr2) => selectFromGroups strategy rr2 rest

-- ===========================================================================
-- KeyManager.selectKey
-- ===========================================================================

/-- The eligible keys surviving the lazy reset, the quota filter and the
model filter, in candidate listing order. -/
def eligibleAfterReset (ctx : RoutingContext) (store : List ApiKeyInfo)
    (today : Int) : List ApiKeyInfo :=
  filterEligibleKeys (resetView today (candidatesOf ctx store)) ctx.requestedModel

/-- KeyManager.selectKey (src/services/key-manager.ts lines 31-112).  The
returned triple carries the selection outcome, the key store after the
lazy daily reset, and the round-robin counter store after any increment.
The store is mutated (batch reset) even on the error paths that follow the
candidate query, exactly as in the source, where the updateMany has
completed before the later gates throw. -/
def selectKey (strategy : KeySelectionStrategy) (ctx : RoutingContext)
    (store : List ApiKeyInfo) (rr : RRStore) (today : Int) :
    Except GatewayError KeySelectionResult × List ApiKeyInfo × RRStore :=
  let keys := candidatesOf ctx store
  if keys.isEmpty then
    (Except.error (GatewayError.noEligibleKey ctx.requestedModel
        (some ctx.requestedProvider)), store, rr)
  else
    let store2 := applyBatchReset today (staleIdsOf today keys) store
    let eligible := eligibleAfterReset ctx store today
    if eligible.isEmpty then
      (Except.error (GatewayError.noEligibleKey ctx.requestedModel
          (some ctx.requestedProvider)), store2, rr)
    else
      match selectFromGroups strategy rr (groupKeysByPriority eligible) with
      | some (k, rr2) =>
        (Except.ok { key := k, resolvedModel := ctx.requestedModel.getD k.defaultModel },
          store2, rr2)
      | none =>
        (Except.error (GatewayError.noEligibleKey ctx.requestedModel
            (some ctx.requestedProvider)), store2, rr)

-- ===========================================================================
-- Lemmas about the stable sort
-- ===========================================================================

theorem mem_insertLe {α : Type} (le : α → α → Bool) (x a : α) :
    ∀ l : List α, a ∈ insertLe le x l ↔ a = x ∨ a ∈ l := by
  intro l
  induction l with
  | nil => simp [insertLe]
  | cons y ys ih =>
    by_cases h : le x y = true
    · simp [insertLe, h]
    · simp only [insertLe, if_neg h, List.mem_cons, ih]
      tauto

theorem mem_sortLe {α : Type} (le : α → α → Bool) (a : α) :
    ∀ l : List α, a ∈ sortLe le l ↔ a ∈ l := by
  intro l
  induction l with
  | nil => simp [sortLe]
  | cons x xs ih => simp [sortLe, mem_insertLe, ih]

theorem sortLe_eq_nil_iff {α : Type} (le : α → α → Bool) (l : List α) :
    sortLe le l = [] ↔ l = [] := by
  cases l with
  | nil => simp [sortLe]
  | cons x xs =>
    simp only [sortLe]
    constructor
    · intro h
      have : x ∈ insertLe le x (sortLe le xs) := by
        rw [mem_insertLe]
        exact Or.inl rfl
      rw [h] at this
      simp at this
    · intro h
      simp at h

/-- The element a stable descending sort places first: the first element
of the list attaining the best comparator value. -/
def firstBest {α : Type} (le : α → α → Bool) : List α → Option α
  | [] => none
  | x :: xs =>
    match firstBest le xs with
    | none => some x
    | some m => some (if le x m then x else m)

theorem head?_sortLe {α : Type} (le : α → α → Bool) :
    ∀ l : List α, (sortLe le l).head? = firstBest le l := by
  intro l
  induction l with
  | nil => rfl
  | cons x xs ih =>
    show (insertLe le x (sortLe le xs)).head? = _
    cases h : sortLe le xs with
    | nil =>
      rw [h] at ih
      simp only [firstBest, ← ih]
      simp [insertLe]
    | cons y ys =>
      rw [h] at ih
      simp only [firstBest, ← ih, List.head?]
      cases hxy : le x y with
      | false => simp [insertLe, hxy]
      | true => simp [insertLe, hxy]

theorem firstBest_cons_some {α : Type} (le : α → α → Bool) (x : α) (xs : List α) :
    ∃ e, firstBest le (x :: xs) = some e := by
  cases h : firstBest le xs with
  | none => exact ⟨x, by simp [firstBest, h]⟩
  | some m => exact ⟨if le x m then x else m, by simp [firstBest, h]⟩

theorem pairwise_insertLe {α : Type} {le : α → α → Bool}
    (htot : ∀ a b, le a b = true ∨ le b a = true)
    (htrans : ∀ a b c, le a b = true → le b c = true → le a c = true)
    (x : α) :
    ∀ l : List α, l.Pairwise (fun a b => le a b = true) →
      (insertLe le x l).Pairwise (fun a b => le a b = true) := by
  intro l
  induction l with
  | nil => simp [insertLe]
  | cons y ys ih =>
    intro h
    rw [List.pairwise_cons] at h
    obtain ⟨hy, hys⟩ := h
    by_cases hxy : le x y = true
    · rw [insertLe, if_pos hxy, List.pairwise_cons]
      constructor
      · intro z hz
        rcases List.mem_cons.mp hz with rfl | hz
        · exact hxy
        · exact htrans x y z hxy (hy z hz)
      · rw [List.pairwise_cons]
        exact ⟨hy, hys⟩
    · rw [insertLe, if_neg hxy, List.pairwise_cons]
      constructor
      · intro z hz
        rcases (mem_insertLe le x z ys).mp hz with rfl | hz
        · rcases htot y z with h | h
          · exact h
          · exact absurd h hxy
        · exact hy z hz
      · exact ih hys

theorem pairwise_sortLe {α : Type} {le : α → α → Bool}
    (htot : ∀ a b, le a b = true ∨ le b a = true)
    (htrans : ∀ a b c, le a b = true → le b c = true → le a c = true) :
    ∀ l : List α, (sortLe le l).Pairwise (fun a b => le a b = true) := by
  intro l
  induction l with
  | nil => simp [sortLe]
  | cons x xs ih => exact pairwise_insertLe htot htrans x _ ih

theorem keyOrderLe_total (a b : ApiKeyInfo) :
    keyOrderLe a b = true ∨ keyOrderLe b a = true := by
  simp only [keyOrderLe, Bool.or_eq_true, Bool.and_eq_true, decide_eq_true_eq,
    beq_iff_eq]
  omega

theorem keyOrderLe_trans (a b c : ApiKeyInfo) :
    keyOrderLe a b = true → keyOrderLe b c = true → keyOrderLe a c = true := by
  simp only [keyOrderLe, Bool.or_eq_true, Bool.and_eq_true, decide_eq_true_eq,
    beq_iff_eq]
  omega

-- ===========================================================================
-- C1: exhaust-first selects the first key of greatest remaining quota
-- ===========================================================================

theorem firstBest_exhaust (l : List ApiKeyInfo) (e : ApiKeyInfo)
    (h : firstBest exhaustLe l = some e) :
    (∀ x ∈ l, remainingQuota x ≤ remainingQuota e) ∧
      ∃ l1 l2, l = l1 ++ e :: l2 ∧ ∀ x ∈ l1, remainingQuota x < remainingQuota e := by
  induction l generalizing e with
  | nil => simp [firstBest] at h
  | cons x xs ih =>
    cases hxs : firstBest exhaustLe xs with
    | none =>
      have hnil : xs = [] := by
        cases xs with
        | nil => rfl
        | cons y ys =>
          obtain ⟨m, hm⟩ := firstBest_cons_some exhaustLe y ys
          rw [hm] at hxs
          exact absurd hxs (by simp)
      rw [firstBest, hxs] at h
      subst hnil
      obtain rfl : x = e := by simpa using h
      refine ⟨by simp, [], [], by simp, by simp⟩
    | some m =>
      rw [firstBest, hxs] at h
      obtain ⟨hmax, l1, l2, hsplit, hfirst⟩ := ih m hxs
      by_cases hle : exhaustLe x m = true
      · obtain rfl : e = x := by simpa [hle, eq_comm] using h
        have hxm : remainingQuota m ≤ remainingQuota e := by
          simpa [exhaustLe] using hle
        refine ⟨?_, [], xs, by simp, by simp⟩
        intro z hz
        rcases List.mem_cons.mp hz with rfl | hz
        · exact le_refl _
        · exact le_trans (hmax z hz) hxm
      · obtain rfl : e = m := by simpa [hle, eq_comm] using h
        have hxm : remainingQuota x < remainingQuota e := by
          have := (Bool.not_eq_true _).mp (by simpa using hle)
          simp only [exhaustLe, decide_eq_false_iff_not, not_le] at this
          exact this
        refine ⟨?_, x :: l1, l2, by simp [hsplit], ?_⟩
        · intro z hz
          rcases List.mem_cons.mp hz with rfl | hz
          · exact le_of_lt hxm
          · exact hmax z hz
        · intro z hz
          rcases List.mem_cons.mp hz with rfl | hz
          · exact hxm
          · exact hfirst z hz

/-- C1: within a non-empty group, exhaust-first returns the key with the
numerically greatest remaining quota dailyLimit - usedToday (infinite when
dailyLimit is unset); when several keys tie, the first of them in the
group's listing order is chosen (all keys strictly before the selected one
have strictly smaller remaining quota), and the listing order produced by
the candidate query is priority ascending then usedToday ascending
(pairwise keyOrderLe). -/
theorem exhaustFirst_selects_first_max :
    (∀ (k : ApiKeyInfo) (ks : List ApiKeyInfo), ∃ e,
        selectExhaustFirst (k :: ks) = some e ∧
        (∀ x ∈ k :: ks, remainingQuota x ≤ remainingQuota e) ∧
        ∃ l1 l2, k :: ks = l1 ++ e :: l2 ∧
          ∀ x ∈ l1, remainingQuota x < remainingQuota e)
    ∧ ∀ ctx store,
        (candidatesOf ctx store).Pairwise (fun a b => keyOrderLe a b = true) := by
  constructor
  · intro k ks
    obtain ⟨e, he⟩ := firstBest_cons_some exhaustLe k ks
    obtain ⟨hmax, hfirst⟩ := firstBest_exhaust (k :: ks) e he
    exact ⟨e, by rw [selectExhaustFirst, head?_sortLe, he], hmax, hfirst⟩
  · intro ctx store
    exact pairwise_sortLe keyOrderLe_total keyOrderLe_trans _

/-- Key A of concrete scenario 1 of the specification: priority 1,
dailyLimit 10, usedToday 9, so remaining quota 1. -/
def scenarioKeyA : ApiKeyInfo :=
  { id := str "A", provider := str "openai", apiKey := str "ka", priority := 1,
    enabled := true, allowedModels := [], defaultModel := str "gpt-4o",
    dailyLimit := some 10, usedToday := 9, resetDate := 0 }

/-- Key B of concrete scenario 1 of the specification: priority 1,
dailyLimit 5, usedToday 1, so remaining quota 4. -/
def scenarioKeyB : ApiKeyInfo :=
  { id := str "B", provider := str "openai", apiKey := str "kb", priority := 1,
    enabled := true, allowedModels := [], defaultModel := str "gpt-4o",
    dailyLimit := some 5, usedToday := 1, resetDate := 0 }

/-- Witness for C1, instantiated at scenario 1 of the specification
(remaining quotas 1 and 4, so key B must be selected). -/
theorem exhaustFirst_selects_first_max_witness :
    (∃ e, selectExhaustFirst [scenarioKeyA, scenarioKeyB] = some e ∧
        (∀ x ∈ [scenarioKeyA, scenarioKeyB],
          remainingQuota x ≤ remainingQuota e) ∧
        ∃ l1 l2, [scenarioKeyA, scenarioKeyB] = l1 ++ e :: l2 ∧
          ∀ x ∈ l1, remainingQuota x < remainingQuota e) ∧
    selectExhaustFirst [scenarioKeyA, scenarioKeyB] = some scenarioKeyB :=
  ⟨exhaustFirst_selects_first_max.1 scenarioKeyA [scenarioKeyB], by decide⟩

-- ===========================================================================
-- C2: selectKey fails exactly on empty candidate / eligible sets,
--     and NoEligibleKey is its only error
-- ===========================================================================

theorem selectKeyFromGroup_cons_some (k0 : ApiKeyInfo) (rest : List ApiKeyInfo)
    (p : Int) (strategy : KeySelectionStrategy) (rr : RRStore) :
    ∃ k rr2, selectKeyFromGroup (k0 :: rest) p strategy rr = (some k, rr2) := by
  cases strategy with
  | exhaustFirst =>
    obtain ⟨e, he⟩ := firstBest_cons_some exhaustLe k0 rest
    exact ⟨e, rr, by
      simp only [selectKeyFromGroup]
      rw [selectExhaustFirst, head?_sortLe, he]⟩
  | roundRobin =>
    have hlt : (rrGet rr (k0.provider, p) + 1 - 1) % (k0 :: rest).length <
        (k0 :: rest).length := Nat.mod_lt _ (by simp)
    obtain ⟨x, hx⟩ : ∃ x,
        (k0 :: rest)[(rrGet rr (k0.provider, p) + 1 - 1) % (k0 :: rest).length]? =
          some x := ⟨_, List.getElem?_eq_getElem hlt⟩
    exact ⟨x, rrSet rr (k0.provider, p) (rrGet rr (k0.provider, p) + 1), by
      simp only [selectKeyFromGroup, getNextRoundRobinIndex]
      rw [hx]⟩

theorem selectFromGroups_total (strategy : KeySelectionStrategy) (rr : RRStore)
    (eligible : List ApiKeyInfo) (h : eligible ≠ []) :
    ∃ k rr2, selectFromGroups strategy rr (groupKeysByPriority eligible) =
      some (k, rr2) := by
  cases hgp : groupPriorities eligible with
  | nil =>
    exfalso
    cases eligible with
    | nil => exact h rfl
    | cons e0 es =>
      have hmem : e0.priority ∈ groupPriorities (e0 :: es) := by
        rw [groupPriorities, mem_sortLe, List.mem_dedup]
        exact List.mem_map_of_mem _ (List.mem_cons_self e0 es)
      rw [hgp] at hmem
      simp at hmem
  | cons p0 ps =>
    have hp0 : p0 ∈ groupPriorities eligible := by rw [hgp]; exact List.mem_cons_self p0 ps
    rw [groupPriorities, mem_sortLe, List.mem_dedup] at hp0
    obtain ⟨kk, hkk, hpkk⟩ := List.mem_map.mp hp0
    have hkmem : kk ∈ eligible.filter (fun k => k.priority == p0) := by
      rw [List.mem_filter]
      exact ⟨hkk, by simp [hpkk]⟩
    rw [groupKeysByPriority, hgp]
    cases hflt : eligible.filter (fun k => k.priority == p0) with
    | nil => rw [hflt] at hkmem; simp at hkmem
    | cons c cs =>
      obtain ⟨k, rr2, hsel⟩ := selectKeyFromGroup_cons_some c cs p0 strategy rr
      refine ⟨k, rr2, ?_⟩
      simp only [List.map_cons, selectFromGroups, hflt, hsel]

/-- C2: selectKey fails exactly when the candidate query is empty or when
the quota/model filter leaves nothing, and every error it returns is the
NoEligibleKey error (built from the requested model and provider); the
third gate (no group yielding a key) never fires. -/
theorem selectKey_fails_iff :
    (∀ (strategy : KeySelectionStrategy) (ctx : RoutingContext) store rr today,
      ((∃ e, (selectKey strategy ctx store rr today).1 = Except.error e) ↔
        (candidatesOf ctx store = [] ∨ eligibleAfterReset ctx store today = [])))
    ∧ ∀ (strategy : KeySelectionStrategy) (ctx : RoutingContext) store rr today e,
        (selectKey strategy ctx store rr today).1 = Except.error e →
          e = GatewayError.noEligibleKey ctx.requestedModel
                (some ctx.requestedProvider) := by
  have hcases : ∀ (strategy : KeySelectionStrategy) (ctx : RoutingContext)
      store rr today,
      (¬ (candidatesOf ctx store = [] ∨ eligibleAfterReset ctx store today = []) ∧
        ∃ r, (selectKey strategy ctx store rr today).1 = Except.ok r) ∨
      ((candidatesOf ctx store = [] ∨ eligibleAfterReset ctx store today = []) ∧
        (selectKey strategy ctx store rr today).1 =
          Except.error (GatewayError.noEligibleKey ctx.requestedModel
            (some ctx.requestedProvider))) := by
    intro strategy ctx store rr today
    by_cases hc : candidatesOf ctx store = []
    · right
      refine ⟨Or.inl hc, ?_⟩
      simp [selectKey, List.isEmpty_iff, hc]
    · by_cases hel : eligibleAfterReset ctx store today = []
      · right
        refine ⟨Or.inr hel, ?_⟩
        have hc2 : (candidatesOf ctx store).isEmpty = false := by
          simpa [List.isEmpty_iff] using hc
        simp [selectKey, hc2, List.isEmpty_iff, hel]
      · left
        refine ⟨by tauto, ?_⟩
        have hc2 : (candidatesOf ctx store).isEmpty = false := by
          simpa [List.isEmpty_iff] using hc
        have hel2 : (eligibleAfterReset ctx store today).isEmpty = false := by
          simpa [List.isEmpty_iff] using hel
        obtain ⟨k, rr2, hsel⟩ := selectFromGroups_total strategy rr _ hel
        refine ⟨{ key := k, resolvedModel := ctx.requestedModel.getD k.defaultModel }, ?_⟩
        simp [selectKey, hc2, hel2, hsel]
  constructor
  · intro strategy ctx store rr today
    rcases hcases strategy ctx store rr today with ⟨hne, r, hr⟩ | ⟨hor, herr⟩
    · constructor
      · rintro ⟨e, he⟩
        rw [hr] at he
        simp at he
      · intro hor
        exact absurd hor hne
    · constructor
      · intro _
        exact hor
      · intro _
        exact ⟨_, herr⟩
  · intro strategy ctx store rr today e he
    rcases hcases strategy ctx store rr today with ⟨_, r, hr⟩ | ⟨_, herr⟩
    · rw [hr] at he
      simp at he
    · rw [herr] at he
      exact ((Except.error.injEq _ _).mp he).symm

/-- Concrete scenario 3 of the specification: the context requests
provider anthropic while the store only holds openai keys. -/
def scenarioCtx3 : RoutingContext :=
  { requestedModel := none, requestedProvider := str "anthropic" }

/-- Witness for C2 at scenario 3: with only an openai key in the store,
requesting provider anthropic fails with NoEligibleKey. -/
theorem selectKey_fails_iff_witness :
    ((∃ e, (selectKey .exhaustFirst scenarioCtx3 [scenarioKeyA] [] 1).1 =
        Except.error e) ↔
      (candidatesOf scenarioCtx3 [scenarioKeyA] = [] ∨
        eligibleAfterReset scenarioCtx3 [scenarioKeyA] 1 = [])) ∧
    (selectKey .exhaustFirst scenarioCtx3 [scenarioKeyA] [] 1).1 =
      Except.error (GatewayError.noEligibleKey none (some (str "anthropic"))) :=
  ⟨selectKey_fails_iff.1 .exhaustFirst scenarioCtx3 [scenarioKeyA] [] 1, by rfl⟩

-- ===========================================================================
-- C3: the eligibility filter (quota clause and model clause)
-- ===========================================================================

/-- The quota condition as the specification states it: dailyLimit unset,
or usedToday strictly below it. -/
def quotaOkSpec (k : ApiKeyInfo) : Prop :=
  k.dailyLimit = none ∨ ∃ D, k.dailyLimit = some D ∧ k.usedToday < D

/-- The model condition as the specification states it: empty allow-list,
a literal asterisk entry, the exact requested model, or a wildcard entry
whose stem is a prefix of the requested model. -/
def modelOkSpec (k : ApiKeyInfo) (m : Str) : Prop :=
  k.allowedModels = []
    ∨ str "*" ∈ k.allowedModels
    ∨ m ∈ k.allowedModels
    ∨ ∃ p, p ++ [Char.ofNat 42] ∈ k.allowedModels ∧ p <+: m

theorem keyQuotaOk_iff (k : ApiKeyInfo) : keyQuotaOk k = true ↔ quotaOkSpec k := by
  unfold keyQuotaOk quotaOkSpec
  cases h : k.dailyLimit with
  | none => simp [h]
  | some limit => simp [h]

theorem star_eq : Char.ofNat 42 = '*' := by decide

theorem modelAllowedForKey_iff (k : ApiKeyInfo) (m : Str) :
    modelAllowedForKey k m = true ↔ modelOkSpec k m := by
  unfold modelAllowedForKey modelOkSpec
  rw [star_eq]
  simp only [Bool.or_eq_true, List.isEmpty_iff, List.any_eq_true,
    Bool.and_eq_true, beq_iff_eq]
  constructor
  · rintro (hnil | ⟨a, ha, (rfl | rfl) | ⟨hlast, hpre⟩⟩)
    · exact Or.inl hnil
    · exact Or.inr (Or.inr (Or.inl ha))
    · exact Or.inr (Or.inl ha)
    · refine Or.inr (Or.inr (Or.inr ⟨a.dropLast, ?_, ?_⟩))
      · have hne : a ≠ [] := by
          intro hc
          rw [hc] at hlast
          simp at hlast
        have hg : a.getLast hne = '*' := by
          have := List.getLast?_eq_getLast a hne
          rw [this] at hlast
          simpa using hlast
        have := List.dropLast_append_getLast hne
        rw [hg] at this
        rw [this]
        exact ha
      · exact List.isPrefixOf_iff_prefix.mp hpre
  · rintro (hnil | hstar | hmem | ⟨p, hp, hpre⟩)
    · exact Or.inl hnil
    · exact Or.inr ⟨str "*", hstar, Or.inl (Or.inr rfl)⟩
    · exact Or.inr ⟨m, hmem, Or.inl (Or.inl rfl)⟩
    · refine Or.inr ⟨p ++ ['*'], hp, Or.inr ⟨?_, ?_⟩⟩
      · rw [List.getLast?_concat]
      · rw [List.dropLast_concat]
        exact List.isPrefixOf_iff_prefix.mpr hpre

/-- A key restricted to the single wildcard pattern gpt-4*. -/
def wildcardKey : ApiKeyInfo :=
  { id := str "C", provider := str "openai", apiKey := str "kc", priority := 1,
    enabled := true, allowedModels := [str "gpt-4*"],
    defaultModel := str "gpt-4o", dailyLimit := none, usedToday := 0,
    resetDate := 0 }

/-- C3: the eligibility filter keeps a key exactly when its quota is not
exhausted (a key with dailyLimit D is excluded iff usedToday has reached
D, a key without dailyLimit never on quota grounds) and, when a model is
requested, the allow-list admits it (empty list, literal asterisk, exact
match, or prefix wildcard); concretely the pattern gpt-4* matches gpt-4o
and gpt-4-turbo but not gpt-3.5-turbo. -/
theorem filterEligibleKeys_spec :
    (∀ keys (k : ApiKeyInfo) (m : Str),
      k ∈ filterEligibleKeys keys (some m) ↔
        (k ∈ keys ∧ quotaOkSpec k ∧ modelOkSpec k m))
    ∧ (∀ keys (k : ApiKeyInfo),
      k ∈ filterEligibleKeys keys none ↔ (k ∈ keys ∧ quotaOkSpec k))
    ∧ modelAllowedForKey wildcardKey (str "gpt-4o") = true
    ∧ modelAllowedForKey wildcardKey (str "gpt-4-turbo") = true
    ∧ modelAllowedForKey wildcardKey (str "gpt-3.5-turbo") = false := by
  refine ⟨?_, ?_, by decide, by decide, by decide⟩
  · intro keys k m
    simp only [filterEligibleKeys, List.mem_filter, Bool.and_eq_true,
      keyQuotaOk_iff, modelAllowedForKey_iff, and_assoc]
  · intro keys k
    simp only [filterEligibleKeys, List.mem_filter, Bool.and_eq_true,
      keyQuotaOk_iff, and_true]

/-- Witness for C3, instantiated at the wildcard key and the model
gpt-4o (scenario 2 of the specification). -/
theorem filterEligibleKeys_spec_witness :
    (wildcardKey ∈ filterEligibleKeys [wildcardKey] (some (str "gpt-4o")) ↔
      (wildcardKey ∈ [wildcardKey] ∧ quotaOkSpec wildcardKey ∧
        modelOkSpec wildcardKey (str "gpt-4o"))) ∧
    wildcardKey ∈ filterEligibleKeys [wildcardKey] (some (str "gpt-4o")) :=
  ⟨filterEligibleKeys_spec.1 [wildcardKey] wildcardKey (str "gpt-4o"), by decide⟩

-- ===========================================================================
-- C4: the lazy daily reset and its frame
-- ===========================================================================

theorem mem_candidatesOf (ctx : RoutingContext) (store : List ApiKeyInfo)
    (k : ApiKeyInfo) :
    k ∈ candidatesOf ctx store ↔ k ∈ store ∧ candidateFilter ctx k = true := by
  rw [candidatesOf, mem_sortLe, List.mem_filter]

/-- C4: whenever the candidate query is non-empty (and stored ids are
distinct, as for a database primary key), the key store after selectKey
is exactly the original store with every stale candidate reset to
usedToday 0 and resetDate today, and with every other key unchanged; this
holds whether or not a key is ultimately selected. -/
theorem selectKey_resets_stale_candidates :
    ∀ (strategy : KeySelectionStrategy) (ctx : RoutingContext) store rr today,
      candidatesOf ctx store ≠ [] →
      (store.map (fun k => k.id)).Nodup →
      (selectKey strategy ctx store rr today).2.1 =
        store.map (fun k =>
          if candidateFilter ctx k && decide (k.resetDate < today)
          then resetKey today k else k) := by
  intro strategy ctx store rr today hne hnd
  have hc2 : (candidatesOf ctx store).isEmpty = false := by
    simpa [List.isEmpty_iff] using hne
  have hstore : (selectKey strategy ctx store rr today).2.1 =
      applyBatchReset today (staleIdsOf today (candidatesOf ctx store)) store := by
    simp only [selectKey, hc2, Bool.false_eq_true, if_false]
    by_cases hel : (eligibleAfterReset ctx store today).isEmpty = true
    · simp [hel]
    · cases hsel : selectFromGroups strategy rr
          (groupKeysByPriority (eligibleAfterReset ctx store today)) with
      | none => simp [hel, hsel]
      | some kr =>
        cases kr with
        | mk k rr2 => simp [hel, hsel]
  rw [hstore, applyBatchReset]
  apply List.map_congr_left
  intro k hk
  have hmem : (staleIdsOf today (candidatesOf ctx store)).contains k.id = true ↔
      (candidateFilter ctx k = true ∧ k.resetDate < today) := by
    rw [List.elem_iff, staleIdsOf, List.mem_map]
    constructor
    · rintro ⟨c, hc, hcid⟩
      rw [List.mem_filter] at hc
      obtain ⟨hcand, hstale⟩ := hc
      rw [mem_candidatesOf] at hcand
      obtain rfl : c = k :=
        List.inj_on_of_nodup_map hnd hcand.1 hk hcid
      exact ⟨hcand.2, by simpa using hstale⟩
    · rintro ⟨hcand, hstale⟩
      refine ⟨k, ?_, rfl⟩
      rw [List.mem_filter, mem_candidatesOf]
      exact ⟨⟨hk, hcand⟩, by simpa using hstale⟩
  by_cases hcond : candidateFilter ctx k = true ∧ k.resetDate < today
  · rw [if_pos (hmem.mpr hcond), if_pos (by simp [hcond.1, hcond.2])]
  · rw [if_neg ?_, if_neg ?_]
    · intro hc
      rw [Bool.and_eq_true, decide_eq_true_eq] at hc
      exact hcond hc
    · intro hc
      exact hcond (hmem.mp hc)

/-- A stale openai candidate for the C4 witness: resetDate 0, well before
day 5, with a restrictive allow-list so that no key is ultimately
selected. -/
def staleKeyW : ApiKeyInfo :=
  { id := str "S", provider := str "openai", apiKey := str "ks", priority := 1,
    enabled := true, allowedModels := [str "only-this"],
    defaultModel := str "only-this", dailyLimit := some 10, usedToday := 7,
    resetDate := 0 }

/-- An anthropic key outside the candidate set for the C4 witness. -/
def otherKeyW : ApiKeyInfo :=
  { id := str "O", provider := str "anthropic", apiKey := str "ko", priority := 1,
    enabled := true, allowedModels := [], defaultModel := str "claude",
    dailyLimit := none, usedToday := 3, resetDate := 0 }

/-- The C4 witness context: requests provider openai and a model no key
allows, so the call fails with NoEligibleKey yet still resets the stale
candidate. -/
def ctxW : RoutingContext :=
  { requestedModel := some (str "zzz"), requestedProvider := str "openai" }

/-- Witness for C4: on a store with one stale openai candidate and one
anthropic non-candidate, selectKey on day 5 resets only the stale
candidate (and it even fails to select any key). -/
theorem selectKey_resets_stale_candidates_witness :
    (selectKey .exhaustFirst ctxW [staleKeyW, otherKeyW] [] 5).2.1 =
      [staleKeyW, otherKeyW].map (fun k =>
        if candidateFilter ctxW k && decide (k.resetDate < 5)
        then resetKey 5 k else k) ∧
    (selectKey .exhaustFirst ctxW [staleKeyW, otherKeyW] [] 5).2.1 =
      [resetKey 5 staleKeyW, otherKeyW] :=
  ⟨selectKey_resets_stale_candidates .exhaustFirst ctxW [staleKeyW, otherKeyW]
      [] 5 (by decide) (by decide),
    by decide⟩

-- ===========================================================================
-- C5: round-robin indexing and uniform distribution
-- ===========================================================================

/-- The indices produced by n consecutive getNextRoundRobinIndex calls
for a fixed (provider, priority) pair against a group of fixed size k,
threading the counter store. -/
def rrSequence (s : RRStore) (provider : Str) (priority : Int) (k : Nat) :
    Nat → List Nat
  | 0 => []
  | Nat.succ n =>
    (getNextRoundRobinIndex s provider priority k).1 ::
      rrSequence (getNextRoundRobinIndex s provider priority k).2 provider priority k n

theorem rrGet_rrSet (s : RRStore) (key : Str × Int) (v : Nat) :
    rrGet (rrSet s key v) key = v := by
  simp [rrGet, rrSet, List.find?]

theorem rrSequence_eq (provider : Str) (priority : Int) (k : Nat) :
    ∀ (n : Nat) (s : RRStore),
      rrSequence s provider priority k n =
        (List.range n).map (fun j => (rrGet s (provider, priority) + j) % k) := by
  intro n
  induction n with
  | zero => intro s; rfl
  | succ m ih =>
    intro s
    rw [rrSequence, ih, List.range_succ_eq_map, List.map_cons, List.map_map]
    simp only [getNextRoundRobinIndex, rrGet_rrSet, Nat.add_sub_cancel, Nat.add_zero]
    refine List.cons_eq_cons.mpr ⟨rfl, ?_⟩
    apply List.map_congr_left
    intro j hj
    simp only [Function.comp]
    congr 1
    omega

theorem count_one_cycle (t i : Nat) (hi : i < t + 1) :
    ∀ c, ((List.range (t + 1)).map (fun j => (c + j) % (t + 1))).count i = 1 := by
  intro c
  induction c with
  | zero =>
    have hmap : (List.range (t + 1)).map (fun j => (0 + j) % (t + 1)) =
        List.range (t + 1) := by
      rw [show (List.range (t + 1)).map (fun j => (0 + j) % (t + 1)) =
          (List.range (t + 1)).map (fun j => j) from
        List.map_congr_left (fun j hj => by
          rw [List.mem_range] at hj
          simp [Nat.mod_eq_of_lt hj])]
      exact List.map_id' _
    rw [hmap]
    exact List.count_eq_one_of_mem (List.nodup_range (t + 1)) (List.mem_range.mpr hi)
  | succ c ih =>
    have hsplitA : (List.range (t + 1)).map (fun j => (c + 1 + j) % (t + 1)) =
        (List.range t).map (fun j => (c + 1 + j) % (t + 1)) ++ [c % (t + 1)] := by
      rw [List.range_succ, List.map_append]
      simp only [List.map_cons, List.map_nil]
      congr 2
      have : c + 1 + t = c + (t + 1) := by omega
      rw [this, Nat.add_mod_right]
    have hsplitB : (List.range (t + 1)).map (fun j => (c + j) % (t + 1)) =
        (c % (t + 1)) :: (List.range t).map (fun j => (c + 1 + j) % (t + 1)) := by
      rw [List.range_succ_eq_map, List.map_cons, List.map_map]
      refine List.cons_eq_cons.mpr ⟨by simp, ?_⟩
      apply List.map_congr_left
      intro j hj
      simp only [Function.comp]
      congr 1
      omega
    rw [hsplitB, List.count_cons] at ih
    rw [hsplitA, List.count_append, List.count_cons, List.count_nil]
    omega

theorem count_range_mod (k i : Nat) (hk : 0 < k) (hi : i < k) :
    ∀ (m : Nat) (c : Nat),
      ((List.range (k * m)).map (fun j => (c + j) % k)).count i = m := by
  intro m
  induction m with
  | zero => intro c; simp
  | succ m ih =>
    intro c
    have hmul : k * (m + 1) = k + k * m := by ring
    rw [hmul, List.range_add, List.map_append, List.count_append, List.map_map]
    have hcycle : ((List.range k).map (fun j => (c + j) % k)).count i = 1 := by
      obtain ⟨t, rfl⟩ : ∃ t, k = t + 1 := ⟨k - 1, by omega⟩
      exact count_one_cycle t i hi c
    have htail : (List.range (k * m)).map ((fun j => (c + j) % k) ∘ (k + ·)) =
        (List.range (k * m)).map (fun j => ((c + k) + j) % k) := by
      apply List.map_congr_left
      intro j hj
      simp only [Function.comp]
      congr 1
      omega
    rw [htail, ih (c + k)]
    omega

/-- C5: the round-robin strategy indexes the group by the shared
counter's new value minus one, modulo the group size, and any k times m
consecutive counter-driven selections against an unchanged group of size
k hit each group index exactly m times. -/
theorem roundRobin_counter_uniform :
    (∀ (k0 : ApiKeyInfo) (rest : List ApiKeyInfo) (p : Int) (rr : RRStore),
      selectKeyFromGroup (k0 :: rest) p .roundRobin rr =
        ((k0 :: rest)[(rrGet rr (k0.provider, p) + 1 - 1) % (k0 :: rest).length]?,
          rrSet rr (k0.provider, p) (rrGet rr (k0.provider, p) + 1)))
    ∧ ∀ (s : RRStore) (provider : Str) (priority : Int) (k m i : Nat),
        0 < k → i < k →
        (rrSequence s provider priority k (k * m)).count i = m := by
  constructor
  · intro k0 rest p rr
    rfl
  · intro s provider priority k m i hk hi
    rw [rrSequence_eq]
    exact count_range_mod k i hk hi m _

/-- Witness for C5: on an untouched counter store, six consecutive calls
against a group of two keys hit each of the indices 0 and 1 exactly three
times, and the group selection equation holds at a concrete group. -/
theorem roundRobin_counter_uniform_witness :
    selectKeyFromGroup [scenarioKeyA, scenarioKeyB] 1 .roundRobin [] =
      (([scenarioKeyA, scenarioKeyB] :
          List ApiKeyInfo)[(rrGet [] (scenarioKeyA.provider, 1) + 1 - 1) %
            ([scenarioKeyA, scenarioKeyB] : List ApiKeyInfo).length]?,
        rrSet [] (scenarioKeyA.provider, 1) (rrGet [] (scenarioKeyA.provider, 1) + 1)) ∧
    (rrSequence [] (str "openai") 1 2 (2 * 3)).count 0 = 3 ∧
    (rrSequence [] (str "openai") 1 2 (2 * 3)).count 1 = 3 :=
  ⟨roundRobin_counter_uniform.1 scenarioKeyA [scenarioKeyB] 1 [],
    roundRobin_counter_uniform.2 [] (str "openai") 1 2 3 0 (by decide) (by decide),
    roundRobin_counter_uniform.2 [] (str "openai") 1 2 3 1 (by decide) (by decide)⟩

-- ===========================================================================
-- C10: BaseProviderAdapter.validateModel (src/providers/base.ts)
-- ===========================================================================

/-- Regex atoms arising from the patterns validateModel builds out of its
supported-model strings: a literal character or the dot wildcard. -/
inductive RAtom where
  | lit (c : Char)
  | dot
  deriving DecidableEq, Repr

/-- Interpret one pattern character as a regex atom. -/
def ratomOf (c : Char) : RAtom := if c = '.' then RAtom.dot else RAtom.lit c

/-- Whether a regex atom matches one character. -/
def ratomMatch : RAtom → Char → Bool
  | RAtom.lit c, d => c == d
  | RAtom.dot, _ => true

/-- Tokenize a pattern: a character followed by an asterisk becomes a
starred atom (Kleene star), any other character a plain atom. -/
def lexRegex : Str → List (RAtom × Bool)
  | [] => []
  | [c] => [(ratomOf c, false)]
  | c :: d :: rest =>
    if d = '*' then (ratomOf c, true) :: lexRegex rest
    else (ratomOf c, false) :: lexRegex (d :: rest)

/-- Backtracking matcher: does the token list match some prefix of the
input (RegExp.test is unanchored on the right)? -/
def matchToks : List (RAtom × Bool) → Str → Bool
  | [], _ => true
  | (t, false) :: ts, s =>
    match s with
    | [] => false
    | c :: cs => ratomMatch t c && matchToks ts cs
  | (t, true) :: ts, s =>
    matchToks ts s ||
      (match s with
       | [] => false
       | c :: cs => ratomMatch t c && matchToks ((t, true) :: ts) cs)
  termination_by ts s => (s.length, ts.length)
  decreasing_by
    all_goals simp_wf
    all_goals omega

/-- RegExp.test is unanchored on the left as well: try every suffix. -/
def regexSearch (toks : List (RAtom × Bool)) : Str → Bool
  | [] => matchToks toks []
  | c :: cs => matchToks toks (c :: cs) || regexSearch toks cs

/-- String.prototype.replace with a plain-string pattern replaces only
the first occurrence: the first asterisk becomes dot-asterisk. -/
def replaceFirstStar : Str → Str
  | [] => []
  | c :: cs => if c = '*' then '.' :: '*' :: cs else c :: replaceFirstStar cs

/-- The regex test validateModel performs on patterns containing an
asterisk. -/
def regexTestStar (pattern : Str) (s : Str) : Bool :=
  regexSearch (lexRegex pattern) s

/-- BaseProviderAdapter.validateModel (src/providers/base.ts lines
33-41): some supported entry equals the model, or is a prefix of the
model, or contains an asterisk and its dot-star regex matches the
model. -/
def validateModel (supportedModels : List Str) (model : Str) : Bool :=
  supportedModels.any (fun supported =>
    supported == model
      || supported.isPrefixOf model
      || (supported.contains '*' && regexTestStar (replaceFirstStar supported) model))

/-- Token usage reported by a provider. -/
structure UsageInfo where
  promptTokens : Nat
  completionTokens : Nat
  totalTokens : Nat
  deriving DecidableEq, Repr

/-- The parts of a ChatResponse the router handles (src/types/index.ts). -/
structure ChatResponse where
  id : Str
  model : Str
  content : Str
  usage : Option UsageInfo := none
  deriving DecidableEq, Repr

/-- The fields of an inbound ChatRequest that drive routing
(src/types/index.ts); the provider field defaults to the sentinel auto. -/
structure ChatRequest where
  model : Option Str := none
  provider : Str := str "auto"
  allowedProviders : Option (List Str) := none
  allowedPriorities : Option (List Int) := none
  requestId : Option Str := none
  deriving DecidableEq, Repr

/-- A runtime error reaching the router's catch block: either a
structured LLMGatewayError or an unstructured Error (network failure,
timeout, adapter exception without a status). -/
inductive RouteError where
  | gateway (e : GatewayError)
  | other (message : Str)
  deriving DecidableEq, Repr

/-- The message carried by an error. -/
def RouteError.message : RouteError → Str
  | .gateway e => e.message
  | .other m => m

/-- RequestRouter.isNonRetryableError (src/services/router.ts lines
258-266): structured errors with a 4xx status other than 429 stop the
retry loop; everything else, unstructured errors included, is retried. -/
def isNonRetryableError : RouteError → Bool
  | .gateway e =>
    if 400 ≤ e.statusCode && e.statusCode < 500 then e.statusCode != 429
    else false
  | .other _ => false

/-- The fields of a UsageLogEntry the router fills (latency carries no
routing-relevant content and is not modelled). -/
structure UsageLogEntry where
  keyId : Str
  provider : Str
  model : Str
  requestedModel : Option Str
  promptTokens : Option Nat := none
  completionTokens : Option Nat := none
  totalTokens : Option Nat := none
  success : Bool
  errorMessage : Option Str := none
  deriving DecidableEq, Repr

/-- The capabilities of a provider adapter the router consults. -/
structure Adapter where
  supportedModels : List Str
  mapModelName : Str → Str

/-- The outcome of one upstream adapter.chat call. -/
inductive AdapterOutcome where
  | ok (resp : ChatResponse)
  | err (e : RouteError)

/-- The environment a route call runs against: the adapter registry and,
for each attempt index, the outcome of the upstream call made on that
attempt. -/
structure RouteEnv where
  adapters : Str → Option Adapter
  outcomes : Nat → AdapterOutcome

/-- Mutable gateway state: the key store and the round-robin counters. -/
structure GatewayState where
  keys : List ApiKeyInfo
  rr : RRStore

/-- The value route resolves with on success. -/
structure RouteSuccess where
  response : ChatResponse
  keyId : Str
  provider : Str
  model : Str
  deriving DecidableEq, Repr

/-- Record of one loop iteration: the key used on success, or the error
caught. -/
inductive AttemptResult where
  | success (keyId : Str)
  | failure (e : RouteError)
  deriving DecidableEq, Repr

/-- The observable outcome of a route call: result, one record per
attempt performed, the backoff sleeps in order, the usage-log appends in
order, and the final gateway state. -/
structure RouteResult where
  result : Except RouteError RouteSuccess
  attempts : List AttemptResult
  sleeps : List Nat
  log : List UsageLogEntry
  state : GatewayState

/-- Mirror of RouterConfig (src/types/index.ts). -/
structure RouterConfig where
  strategy : KeySelectionStrategy
  maxRetries : Nat
  retryDelayMs : Nat

/-- KeyManager.incrementUsage: bump usedToday of the key with the given
id (the lastUsedAt stamp carries no routing content). -/
def incrementUsage (keyId : Str) (keys : List ApiKeyInfo) : List ApiKeyInfo :=
  keys.map (fun k =>
    if k.id == keyId then { k with usedToday := k.usedToday + 1 } else k)

/-- One iteration of the router's try block (src/services/router.ts lines
78-162): select a key (selectKeyWithFallback throws the already-attempted
503 before the id is added), resolve the adapter, validate the model, and
run the upstream call whose outcome the environment fixes for this
attempt; on success the key's usage is incremented. -/
def tryAttempt (env : RouteEnv) (strategy : KeySelectionStrategy)
    (ctx : RoutingContext) (today : Int) (attemptIdx : Nat)
    (attempted : List Str) (st : GatewayState) :
    Except RouteError RouteSuccess × List Str × GatewayState :=
  match selectKey strategy ctx st.keys st.rr today with
  | (Except.error e, keys2, rr2) =>
    (Except.error (RouteError.gateway e), attempted, ⟨keys2, rr2⟩)
  | (Except.ok sel, keys2, rr2) =>
    if attempted.contains sel.key.id then
      (Except.error (RouteError.gateway (GatewayError.providerError
          sel.key.provider (str "Key already attempted, trying next") 503)),
        attempted, ⟨keys2, rr2⟩)
    else
      match env.adapters sel.key.provider with
      | none =>
        (Except.error (RouteError.gateway (GatewayError.providerError
            sel.key.provider (str "Provider adapter not found") 500)),
          sel.key.id :: attempted, ⟨keys2, rr2⟩)
      | some adapter =>
        if validateModel adapter.supportedModels sel.resolvedModel then
          match env.outcomes attemptIdx with
          | AdapterOutcome.ok resp =>
            (Except.ok
                { response := resp, keyId := sel.key.id,
                  provider := sel.key.provider, model := sel.resolvedModel },
              sel.key.id :: attempted,
              ⟨incrementUsage sel.key.id keys2, rr2⟩)
          | AdapterOutcome.err e =>
            (Except.error e, sel.key.id :: attempted, ⟨keys2, rr2⟩)
        else
          (Except.error (RouteError.gateway (GatewayError.modelNotSupported
              sel.resolvedModel sel.key.provider)),
            sel.key.id :: attempted, ⟨keys2, rr2⟩)

/-- The failure UsageLogEntry appended on terminal failure
(src/services/router.ts lines 192-201): keyId sentinel unknown, provider
defaulting to openai under auto, model defaulting to unknown. -/
def terminalLogEntry (ctx : RoutingContext) (reqModel : Option Str)
    (lastError : Option RouteError) : UsageLogEntry :=
  { keyId := str "unknown",
    provider := if ctx.requestedProvider == str "auto" then str "openai"
      else ctx.requestedProvider,
    model := ctx.requestedModel.getD (str "unknown"),
    requestedModel := reqModel,
    success := false,
    errorMessage := lastError.map RouteError.message }

/-- The error propagated on terminal failure (src/services/router.ts
lines 212-216): the last error when it is a structured gateway error,
otherwise a fresh NoEligibleKey. -/
def terminalError (ctx : RoutingContext) (lastError : Option RouteError) :
    RouteError :=
  match lastError with
  | some (RouteError.gateway e) => RouteError.gateway e
  | _ => RouteError.gateway (GatewayError.noEligibleKey ctx.requestedModel
      (some ctx.requestedProvider))

/-- The terminal-failure tail of RequestRouter.route. -/
def terminalFailure (ctx : RoutingContext) (reqModel : Option Str)
    (lastError : Option RouteError) (st : GatewayState) : RouteResult :=
  { result := Except.error (terminalError ctx lastError),
    attempts := [], sleeps := [],
    log := [terminalLogEntry ctx reqModel lastError], state := st }

/-- The success UsageLogEntry appended when an attempt succeeds. -/
def successLogEntry (reqModel : Option Str) (s : RouteSuccess) : UsageLogEntry :=
  { keyId := s.keyId, provider := s.provider, model := s.model,
    requestedModel := reqModel,
    promptTokens := s.response.usage.map (fun u => u.promptTokens),
    completionTokens := s.response.usage.map (fun u => u.completionTokens),
    totalTokens := s.response.usage.map (fun u => u.totalTokens),
    success := true }

/-- The retry loop of RequestRouter.route, with the remaining fuel
maxRetries - attemptIdx as the recursion measure: a successful attempt
returns at once; a non-retryable error breaks to the terminal tail; a
retryable error sleeps retryDelayMs * 2 ^ attemptIdx (only when attempts
remain) and continues. -/
def routeLoop (env : RouteEnv) (strategy : KeySelectionStrategy)
    (retryDelayMs : Nat) (ctx : RoutingContext) (reqModel : Option Str)
    (today : Int) :
    Nat → Nat → List Str → GatewayState → Option RouteError → RouteResult
  | _, 0, _, st, lastError => terminalFailure ctx reqModel lastError st
  | attemptIdx, Nat.succ fuel, attempted, st, _ =>
    match tryAttempt env strategy ctx today attemptIdx attempted st with
    | (Except.ok s, _, st2) =>
      { result := Except.ok s, attempts := [AttemptResult.success s.keyId],
        sleeps := [], log := [successLogEntry reqModel s], state := st2 }
    | (Except.error e, attempted2, st2) =>
      if isNonRetryableError e then
        { result := Except.error (terminalError ctx (some e)),
          attempts := [AttemptResult.failure e], sleeps := [],
          log := [terminalLogEntry ctx reqModel (some e)], state := st2 }
      else
        let rest := routeLoop env strategy retryDelayMs ctx reqModel today
          (attemptIdx + 1) fuel attempted2 st2 (some e)
        { rest with
            attempts := AttemptResult.failure e :: rest.attempts,
            sleeps := (if fuel = 0 then [] else [retryDelayMs * 2 ^ attemptIdx])
              ++ rest.sleeps }

/-- RequestRouter.route (src/services/router.ts lines 43-217). -/
def route (env : RouteEnv) (cfg : RouterConfig) (req : ChatRequest)
    (today : Int) (st : GatewayState) : RouteResult :=
  let ctx : RoutingContext :=
    { requestedModel := req.model, requestedProvider := req.provider,
      allowedProviders := req.allowedProviders,
      allowedPriorities := req.allowedPriorities }
  routeLoop env cfg.strategy cfg.retryDelayMs ctx req.model today
    0 cfg.maxRetries [] st none

-- ===========================================================================
-- Master lemmas about the retry loop
-- ===========================================================================

theorem routeLoop_props (env : RouteEnv) (strategy : KeySelectionStrategy)
    (d : Nat) (ctx : RoutingContext) (reqModel : Option Str) (today : Int) :
    ∀ (fuel i : Nat) (attempted : List Str) (st : GatewayState)
      (lastErr : Option RouteError),
      (routeLoop env strategy d ctx reqModel today i fuel attempted st
          lastErr).attempts.length ≤ fuel ∧
      (0 < fuel → 0 < (routeLoop env strategy d ctx reqModel today i fuel
          attempted st lastErr).attempts.length) ∧
      ((routeLoop env strategy d ctx reqModel today i fuel attempted st
          lastErr).sleeps =
        (List.range ((routeLoop env strategy d ctx reqModel today i fuel
            attempted st lastErr).attempts.length - 1)).map
          (fun j => d * 2 ^ (i + j))) ∧
      (∀ j e, (routeLoop env strategy d ctx reqModel today i fuel attempted st
          lastErr).attempts[j]? = some (AttemptResult.failure e) →
        isNonRetryableError e = true →
        j = (routeLoop env strategy d ctx reqModel today i fuel attempted st
          lastErr).attempts.length - 1) ∧
      (∀ j e, (routeLoop env strategy d ctx reqModel today i fuel attempted st
          lastErr).attempts[j]? = some (AttemptResult.failure e) →
        isNonRetryableError e = false → j + 1 < fuel →
        j + 1 < (routeLoop env strategy d ctx reqModel today i fuel attempted st
          lastErr).attempts.length) := by
  intro fuel
  induction fuel with
  | zero =>
    intro i attempted st lastErr
    simp only [routeLoop, terminalFailure]
    refine ⟨by simp, by simp, by simp, ?_, ?_⟩
    · intro j e hj
      simp at hj
    · intro j e hj
      simp at hj
  | succ f ih =>
    intro i attempted st lastErr
    rcases htry : tryAttempt env strategy ctx today i attempted st with
      ⟨res, att2, st2⟩
    cases res with
    | ok s =>
      simp only [routeLoop, htry]
      refine ⟨by simp, by simp, by simp, ?_, ?_⟩
      · intro j e hj _
        cases j with
        | zero => simp at hj
        | succ j => simp at hj
      · intro j e hj _ _
        cases j with
        | zero => simp at hj
        | succ j => simp at hj
    | error e =>
      by_cases hnr : isNonRetryableError e = true
      · simp only [routeLoop, htry, hnr, if_true]
        refine ⟨by simp, by simp, by simp, ?_, ?_⟩
        · intro j e' hj _
          cases j with
          | zero => simp
          | succ j => simp at hj
        · intro j e' hj hfalse _
          cases j with
          | zero =>
            simp only [List.getElem?_cons_zero, Option.some_inj] at hj
            have : e = e' := by
              injection hj with h
            rw [← this] at hfalse
            rw [hfalse] at hnr
            simp at hnr
          | succ j => simp at hj
      · have hnr' : isNonRetryableError e = false := by
          simpa using hnr
        simp only [routeLoop, htry, hnr', Bool.false_eq_true, if_false]
        obtain ⟨ih1, ih2, ih3, ih4, ih5⟩ := ih (i + 1) att2 st2 (some e)
        refine ⟨?_, ?_, ?_, ?_, ?_⟩
        · simpa using ih1
        · intro _
          simp
        · by_cases hf : f = 0
          · subst hf
            have hlen : (routeLoop env strategy d ctx reqModel today (i + 1) 0
                att2 st2 (some e)).attempts.length = 0 := by omega
            have hsleeps : (routeLoop env strategy d ctx reqModel today (i + 1) 0
                att2 st2 (some e)).sleeps = [] := by
              rw [ih3, hlen]
              simp
            simp [hsleeps, hlen]
          · have hrpos := ih2 (Nat.pos_of_ne_zero hf)
            rw [if_neg hf]
            simp only [List.length_cons, Nat.add_sub_cancel, List.singleton_append]
            have hsplit : (routeLoop env strategy d ctx reqModel today (i + 1) f
                att2 st2 (some e)).attempts.length =
                ((routeLoop env strategy d ctx reqModel today (i + 1) f
                  att2 st2 (some e)).attempts.length - 1) + 1 := by omega
            rw [hsplit, List.range_succ_eq_map, List.map_cons, List.map_map, ih3]
            refine List.cons_eq_cons.mpr ⟨by simp, ?_⟩
            apply List.map_congr_left
            intro j hj
            simp only [Function.comp]
            congr 1
            congr 1
            omega
        · intro j e' hj _
          cases j with
          | zero =>
            simp only [List.getElem?_cons_zero, Option.some_inj] at hj
            have : e = e' := by
              injection hj with h
            subst this
            rename_i htrue
            rw [htrue] at hnr'
            simp at hnr'
          | succ j =>
            rename_i htrue
            simp only [List.getElem?_cons_succ] at hj
            have hlt := (List.getElem?_eq_some.mp hj).1
            have := ih4 j e' hj htrue
            simp only [List.length_cons]
            omega
        · intro j e' hj hfalse hlt
          cases j with
          | zero =>
            have hrpos := ih2 (by omega)
            simp only [List.length_cons]
            omega
          | succ j =>
            simp only [List.getElem?_cons_succ] at hj
            have := ih5 j e' hj hfalse (by omega)
            simp only [List.length_cons]
            omega

theorem routeLoop_failure (env : RouteEnv) (strategy : KeySelectionStrategy)
    (d : Nat) (ctx : RoutingContext) (reqModel : Option Str) (today : Int) :
    ∀ (fuel i : Nat) (attempted : List Str) (st : GatewayState)
      (lastErr : Option RouteError) (err : RouteError),
      (routeLoop env strategy d ctx reqModel today i fuel attempted st
          lastErr).result = Except.error err →
      ∃ le : Option RouteError,
        (((routeLoop env strategy d ctx reqModel today i fuel attempted st
            lastErr).attempts = [] ∧ le = lastErr) ∨
          ∃ e, (routeLoop env strategy d ctx reqModel today i fuel attempted st
              lastErr).attempts.getLast? = some (AttemptResult.failure e) ∧
            le = some e) ∧
        (routeLoop env strategy d ctx reqModel today i fuel attempted st
            lastErr).log = [terminalLogEntry ctx reqModel le] ∧
        err = terminalError ctx le := by
  intro fuel
  induction fuel with
  | zero =>
    intro i attempted st lastErr err herr
    rw [routeLoop] at herr
    simp only [terminalFailure] at herr
    refine ⟨lastErr, Or.inl ⟨rfl, rfl⟩, rfl, ?_⟩
    exact ((Except.error.injEq _ _).mp herr).symm
  | succ f ih =>
    intro i attempted st lastErr err herr
    rcases htry : tryAttempt env strategy ctx today i attempted st with
      ⟨res, att2, st2⟩
    cases res with
    | ok s =>
      rw [routeLoop, htry] at herr
      simp at herr
    | error e =>
      by_cases hnr : isNonRetryableError e = true
      · rw [routeLoop, htry] at herr
        simp only [hnr, if_true] at herr
        simp only [routeLoop, htry, hnr, if_true]
        refine ⟨some e, Or.inr ⟨e, by simp, rfl⟩, rfl, ?_⟩
        exact ((Except.error.injEq _ _).mp herr).symm
      · have hnr' : isNonRetryableError e = false := by simpa using hnr
        rw [routeLoop, htry] at herr
        simp only [hnr', Bool.false_eq_true, if_false] at herr
        simp only [routeLoop, htry, hnr', Bool.false_eq_true, if_false]
        obtain ⟨le, hdisj, hlog, herr2⟩ := ih (i + 1) att2 st2 (some e) err herr
        refine ⟨le, ?_, hlog, herr2⟩
        rcases hdisj with ⟨hnil, hle⟩ | ⟨e2, hlast, hle⟩
        · refine Or.inr ⟨e, ?_, hle⟩
          rw [hnil]
          rfl
        · refine Or.inr ⟨e2, ?_, hle⟩
          cases hatt : (routeLoop env strategy d ctx reqModel today (i + 1) f
              att2 st2 (some e)).attempts with
          | nil =>
            rw [hatt] at hlast
            simp at hlast
          | cons a l =>
            rw [hatt] at hlast
            rw [List.getLast?_cons_cons]
            exact hlast

/-- C6: the router performs at most maxRetries attempts; every attempt
except the last is followed by exactly one backoff sleep, and the sleep
after attempt i lasts retryDelayMs * 2 ^ i; a non-retryable error (a
structured error with status in 400..499 other than 429, and only such an
error) ends the attempt list, and a retryable failure with attempts
remaining is always followed by another attempt. -/
theorem route_retry_policy :
    ∀ (env : RouteEnv) (cfg : RouterConfig) (req : ChatRequest) (today : Int)
      (st : GatewayState),
      (route env cfg req today st).attempts.length ≤ cfg.maxRetries ∧
      (route env cfg req today st).sleeps =
        (List.range ((route env cfg req today st).attempts.length - 1)).map
          (fun j => cfg.retryDelayMs * 2 ^ j) ∧
      (∀ j e, (route env cfg req today st).attempts[j]? =
          some (AttemptResult.failure e) → isNonRetryableError e = true →
        j = (route env cfg req today st).attempts.length - 1) ∧
      (∀ j e, (route env cfg req today st).attempts[j]? =
          some (AttemptResult.failure e) → isNonRetryableError e = false →
        j + 1 < cfg.maxRetries →
        j + 1 < (route env cfg req today st).attempts.length) ∧
      ∀ e : RouteError, isNonRetryableError e = true ↔
        ∃ g, e = RouteError.gateway g ∧ 400 ≤ g.statusCode ∧
          g.statusCode < 500 ∧ g.statusCode ≠ 429 := by
  intro env cfg req today st
  simp only [route]
  obtain ⟨h1, _h2, h3, h4, h5⟩ := routeLoop_props env cfg.strategy
    cfg.retryDelayMs
    { requestedModel := req.model, requestedProvider := req.provider,
      allowedProviders := req.allowedProviders,
      allowedPriorities := req.allowedPriorities }
    req.model today cfg.maxRetries 0 [] st none
  refine ⟨h1, ?_, h4, h5, ?_⟩
  · rw [h3]
    apply List.map_congr_left
    intro j _
    rw [Nat.zero_add]
  · intro e
    cases e with
    | other m =>
      simp only [isNonRetryableError]
      constructor
      · intro h
        simp at h
      · rintro ⟨g, hg, _⟩
        simp at hg
    | gateway g =>
      simp only [isNonRetryableError]
      by_cases hc : 400 ≤ g.statusCode ∧ g.statusCode < 500
      · rw [if_pos (by simp [hc.1, hc.2])]
        rw [bne_iff_ne]
        constructor
        · intro h
          exact ⟨g, rfl, hc.1, hc.2, h⟩
        · rintro ⟨g', hg', _, _, h3'⟩
          have : g = g' := by
            injection hg' with h
          rw [this]
          exact h3'
      · rw [if_neg (by simpa using hc)]
        constructor
        · intro h
          simp at h
        · rintro ⟨g', hg', hb1, hb2, _⟩
          have : g = g' := by
            injection hg' with h
          rw [this] at hc
          exact absurd ⟨hb1, hb2⟩ hc

/-- Environment for the C6 witness: every upstream call fails with a
retryable 500, so the router retries and backs off. -/
def envW6 : RouteEnv :=
  { adapters := fun _ => some
      { supportedModels := [str "gpt-4o"], mapModelName := fun m => m },
    outcomes := fun _ => AdapterOutcome.err (RouteError.gateway
      (GatewayError.providerError (str "openai") (str "boom") 500)) }

/-- Router configuration for the C6 witness: three attempts, base delay
100. -/
def cfgW6 : RouterConfig :=
  { strategy := KeySelectionStrategy.exhaustFirst, maxRetries := 3,
    retryDelayMs := 100 }

/-- Request for the C6 witness. -/
def reqW6 : ChatRequest := { model := some (str "gpt-4o"), provider := str "openai" }

/-- Gateway state for the C6 witness: one openai key. -/
def stW6 : GatewayState := { keys := [scenarioKeyA], rr := [] }

/-- Witness for C6: the concrete run burns all three attempts (one 500,
then two already-attempted 503s) and sleeps 100 then 200 between them. -/
theorem route_retry_policy_witness :
    (route envW6 cfgW6 reqW6 0 stW6).attempts.length ≤ cfgW6.maxRetries ∧
    (route envW6 cfgW6 reqW6 0 stW6).attempts.length = 3 ∧
    (route envW6 cfgW6 reqW6 0 stW6).sleeps = [100, 200] :=
  ⟨(route_retry_policy envW6 cfgW6 reqW6 0 stW6).1, by decide, by decide⟩

/-- C7: a route call that ends in terminal failure appends exactly one
failure usage-log entry, that entry carries the keyId sentinel unknown
(in particular when no key was ever successfully selected), and the
propagated error is the last structured error, or the generic
NoEligibleKey when the last error is not a structured gateway error. -/
theorem route_terminal_failure_log :
    ∀ (env : RouteEnv) (cfg : RouterConfig) (req : ChatRequest) (today : Int)
      (st : GatewayState) (err : RouteError),
      (route env cfg req today st).result = Except.error err →
      ((route env cfg req today st).log.filter
          (fun en => en.success == false)).length = 1 ∧
      (∀ en ∈ (route env cfg req today st).log, en.success = false →
        en.keyId = str "unknown") ∧
      (∀ g, (route env cfg req today st).attempts.getLast? =
          some (AttemptResult.failure (RouteError.gateway g)) →
        err = RouteError.gateway g) ∧
      ((∀ g, (route env cfg req today st).attempts.getLast? ≠
          some (AttemptResult.failure (RouteError.gateway g))) →
        err = RouteError.gateway (GatewayError.noEligibleKey req.model
          (some req.provider))) := by
  intro env cfg req today st err herr
  simp only [route] at herr ⊢
  obtain ⟨le, hdisj, hlog, herr2⟩ := routeLoop_failure env cfg.strategy
    cfg.retryDelayMs
    { requestedModel := req.model, requestedProvider := req.provider,
      allowedProviders := req.allowedProviders,
      allowedPriorities := req.allowedPriorities }
    req.model today cfg.maxRetries 0 [] st none err herr
  refine ⟨?_, ?_, ?_, ?_⟩
  · rw [hlog]
    simp [terminalLogEntry]
  · intro en hen _
    rw [hlog] at hen
    simp only [List.mem_singleton] at hen
    rw [hen]
    rfl
  · intro g hlast
    rcases hdisj with ⟨hnil, _⟩ | ⟨e, hlast2, hle⟩
    · rw [hnil] at hlast
      simp at hlast
    · rw [hlast2] at hlast
      have he : e = RouteError.gateway g := by
        simpa using hlast
      rw [herr2, hle, he]
      rfl
  · intro hno
    rcases hdisj with ⟨_, hle⟩ | ⟨e, hlast2, hle⟩
    · rw [herr2, hle]
      rfl
    · cases e with
      | gateway g => exact absurd hlast2 (hno g)
      | other m =>
        rw [herr2, hle]
        rfl

/-- Environment for the C7 and C8 witnesses: no keys exist, so selection
fails with NoEligibleKey on the only attempt. -/
def envW7 : RouteEnv :=
  { adapters := fun _ => none,
    outcomes := fun _ => AdapterOutcome.err (RouteError.other (str "net")) }

/-- Router configuration for the C7 and C8 witnesses: a single attempt. -/
def cfgW7 : RouterConfig :=
  { strategy := KeySelectionStrategy.exhaustFirst, maxRetries := 1,
    retryDelayMs := 50 }

/-- Request for the C7 and C8 witnesses: all defaults (provider auto). -/
def reqW7 : ChatRequest := { }

/-- Gateway state for the C7 and C8 witnesses: empty key store. -/
def stW7 : GatewayState := { keys := [], rr := [] }

/-- The terminal error of the C7 and C8 witness run. -/
def errW7 : RouteError :=
  RouteError.gateway (GatewayError.noEligibleKey none (some (str "auto")))

/-- Witness for C7: the failing run logs exactly one failure entry with
keyId unknown, and the last structured error is propagated. -/
theorem route_terminal_failure_log_witness :
    ((route envW7 cfgW7 reqW7 0 stW7).log.filter
        (fun en => en.success == false)).length = 1 ∧
    (∀ en ∈ (route envW7 cfgW7 reqW7 0 stW7).log, en.success = false →
      en.keyId = str "unknown") ∧
    (∀ g, (route envW7 cfgW7 reqW7 0 stW7).attempts.getLast? =
        some (AttemptResult.failure (RouteError.gateway g)) →
      errW7 = RouteError.gateway g) ∧
    ((∀ g, (route envW7 cfgW7 reqW7 0 stW7).attempts.getLast? ≠
        some (AttemptResult.failure (RouteError.gateway g))) →
      errW7 = RouteError.gateway (GatewayError.noEligibleKey reqW7.model
        (some reqW7.provider))) :=
  route_terminal_failure_log envW7 cfgW7 reqW7 0 stW7 errW7 (by rfl)

-- ===========================================================================
-- C8: the queue worker (src/queue/worker.ts)
-- ===========================================================================

/-- Mirror of QueueJobResult (src/types/index.ts); latencyMs carries no
routing content and is not modelled. -/
structure QueueJobResult where
  success : Bool
  response : Option ChatResponse := none
  error : Option Str := none
  keyId : Option Str := none
  provider : Option Str := none
  model : Option Str := none
  deriving DecidableEq, Repr

/-- processChatJob (src/queue/worker.ts lines 21-89): run the router; on
success return a completed result; on a structured gateway error with
status below 500 return a completed result with success false and the
error message; re-raise anything else so the broker retries the job. -/
def processChatJob (env : RouteEnv) (cfg : RouterConfig) (req : ChatRequest)
    (today : Int) (st : GatewayState) : Except RouteError QueueJobResult :=
  match (route env cfg req today st).result with
  | Except.ok s =>
    Except.ok
      { success := true, response := some s.response,
        keyId := some s.keyId, provider := some s.provider,
        model := some s.model }
  | Except.error e =>
    match e with
    | RouteError.gateway g =>
      if g.statusCode < 500 then
        Except.ok { success := false, error := some (RouteError.gateway g).message }
      else
        Except.error (RouteError.gateway g)
    | RouteError.other m => Except.error (RouteError.other m)

/-- C8: when the router fails with a structured gateway error of status
below 500, the worker returns a completed job result with success false
carrying the error message (so the broker schedules no retry); any other
router error is re-raised to the broker. -/
theorem worker_completes_client_errors :
    ∀ (env : RouteEnv) (cfg : RouterConfig) (req : ChatRequest) (today : Int)
      (st : GatewayState),
      (∀ g, (route env cfg req today st).result =
          Except.error (RouteError.gateway g) → g.statusCode < 500 →
        processChatJob env cfg req today st =
          Except.ok
            { success := false,
              error := some (RouteError.gateway g).message }) ∧
      ∀ e, (route env cfg req today st).result = Except.error e →
        (∀ g, e = RouteError.gateway g → 500 ≤ g.statusCode) →
        processChatJob env cfg req today st = Except.error e := by
  intro env cfg req today st
  constructor
  · intro g hres hlt
    rw [processChatJob, hres]
    simp [hlt]
  · intro e hres hge
    rw [processChatJob, hres]
    cases e with
    | gateway g =>
      have := hge g rfl
      simp only []
      rw [if_neg (by omega)]
    | other m => rfl

/-- Witness for C8: the single-attempt run against an empty key store
fails with NoEligibleKey (status 429, below 500), so the job completes
with success false and the error message, and the broker will not retry. -/
theorem worker_completes_client_errors_witness :
    processChatJob envW7 cfgW7 reqW7 0 stW7 =
      Except.ok
        { success := false,
          error := some (RouteError.gateway
            (GatewayError.noEligibleKey none (some (str "auto")))).message } :=
  (worker_completes_client_errors envW7 cfgW7 reqW7 0 stW7).1
    (GatewayError.noEligibleKey none (some (str "auto"))) (by rfl) (by decide)

-- ===========================================================================
-- C9: waitForJob (src/queue/jobs.ts)
-- ===========================================================================

/-- Snapshot of a stored job as the direct-lookup fallback of waitForJob
sees it. -/
structure JobSnapshot where
  isCompleted : Bool
  returnvalue : Option QueueJobResult
  isFailed : Bool
  failedReason : Option Str
  deriving DecidableEq, Repr

/-- One asynchronous happening delivered to a pending waitForJob call: a
completed or failed queue event (the returnvalue of a completed event is
none when the serialized payload does not parse), the answer of the
direct getJob lookup issued right after subscribing (none when no job
with that id exists), or the firing of the waiter's own timeout timer.
The list order models the order the event loop runs the handlers; the
job completes before the timeout elapses exactly when its completed
event (or an already-completed lookup answer) precedes timerFire. -/
inductive Delivery where
  | completed (jobId : Str) (returnvalue : Option QueueJobResult)
  | failed (jobId : Str) (failedReason : Str)
  | lookup (found : Option JobSnapshot)
  | timerFire
  deriving DecidableEq, Repr

/-- The resolution of a waitForJob promise: resolved with the job's
result, rejected with a failure reason (job failure or parse failure),
rejected with the timeout error, or still pending. -/
inductive WaiterOutcome where
  | resolved (r : QueueJobResult)
  | rejected (reason : Str)
  | timedOut
  | pending
  deriving DecidableEq, Repr

/-- The handlers of waitForJob (src/queue/jobs.ts lines 151-200) applied
to one delivery while the waiter is still pending: completed and failed
events are filtered by job id; a matching completed event resolves with
the parsed returnvalue, or rejects when parsing fails; a matching failed
event rejects with its reason; the lookup fallback resolves from an
already-completed job with a returnvalue and rejects from an
already-failed one; the timer rejects with the timeout error. -/
def stepWaiter (requestId : Str) : Delivery → Option WaiterOutcome
  | Delivery.completed jobId rv =>
    if jobId == requestId then
      some (match rv with
        | some r => WaiterOutcome.resolved r
        | none => WaiterOutcome.rejected (str "Failed to parse job result"))
    else none
  | Delivery.failed jobId reason =>
    if jobId == requestId then some (WaiterOutcome.rejected reason) else none
  | Delivery.lookup none => none
  | Delivery.lookup (some js) =>
    match js.isCompleted, js.returnvalue with
    | true, some r => some (WaiterOutcome.resolved r)
    | _, _ =>
      if js.isFailed then
        some (WaiterOutcome.rejected (js.failedReason.getD (str "Job failed")))
      else none
  | Delivery.timerFire => some WaiterOutcome.timedOut

/-- The waiter: the promise settles with the first delivery that
resolves it; cleanup removes the handlers afterwards, so every later
delivery is ignored, and the waiter never writes to the job store. -/
def runWaiter (requestId : Str) : List Delivery → WaiterOutcome
  | [] => WaiterOutcome.pending
  | dd :: ds =>
    match stepWaiter requestId dd with
    | some o => o
    | none => runWaiter requestId ds

theorem runWaiter_append_silent (requestId : Str) (ds1 ds2 : List Delivery)
    (h : ∀ dd ∈ ds1, stepWaiter requestId dd = none) :
    runWaiter requestId (ds1 ++ ds2) = runWaiter requestId ds2 := by
  induction ds1 with
  | nil => rfl
  | cons dd ds ih =>
    rw [List.cons_append, runWaiter, h dd (List.mem_cons_self dd ds)]
    exact ih (fun x hx => h x (List.mem_cons_of_mem dd hx))

/-- C9: a waiter resolves with the job's result when the matching
completed event arrives before its timer fires (including via the
direct-lookup fallback when the job had already completed), rejects with
the timeout outcome (distinct by construction from any job-failure
rejection and from any resolution) when the timer fires first, ignores
events for other job ids, settles on the first resolving delivery with
everything after it ignored, and being a pure observer never alters the
underlying job, which may still complete after a timeout. -/
theorem waitForJob_spec :
    (∀ (requestId : Str) (ds1 ds2 : List Delivery) (rv : Option QueueJobResult)
        (r : QueueJobResult),
      (∀ dd ∈ ds1, stepWaiter requestId dd = none) → rv = some r →
      runWaiter requestId (ds1 ++ Delivery.completed requestId rv :: ds2) =
        WaiterOutcome.resolved r)
    ∧ (∀ (requestId : Str) (js : JobSnapshot) (ds : List Delivery)
        (r : QueueJobResult),
      js.isCompleted = true → js.returnvalue = some r →
      runWaiter requestId (Delivery.lookup (some js) :: ds) =
        WaiterOutcome.resolved r)
    ∧ (∀ (requestId : Str) (ds1 ds2 : List Delivery),
      (∀ dd ∈ ds1, stepWaiter requestId dd = none) →
      runWaiter requestId (ds1 ++ Delivery.timerFire :: ds2) =
        WaiterOutcome.timedOut)
    ∧ ((∀ reason, WaiterOutcome.timedOut ≠ WaiterOutcome.rejected reason) ∧
        ∀ r, WaiterOutcome.timedOut ≠ WaiterOutcome.resolved r)
    ∧ (∀ (requestId jobId : Str) (rv : Option QueueJobResult) (reason : Str)
        (ds : List Delivery), (jobId == requestId) = false →
      runWaiter requestId (Delivery.completed jobId rv :: ds) =
        runWaiter requestId ds ∧
      runWaiter requestId (Delivery.failed jobId reason :: ds) =
        runWaiter requestId ds)
    ∧ ∀ (requestId : Str) (dd : Delivery) (o : WaiterOutcome)
        (ds1 ds2 : List Delivery),
      (∀ x ∈ ds1, stepWaiter requestId x = none) →
      stepWaiter requestId dd = some o →
      runWaiter requestId (ds1 ++ dd :: ds2) = o := by
  have hfirst : ∀ (requestId : Str) (dd : Delivery) (o : WaiterOutcome)
      (ds1 ds2 : List Delivery),
      (∀ x ∈ ds1, stepWaiter requestId x = none) →
      stepWaiter requestId dd = some o →
      runWaiter requestId (ds1 ++ dd :: ds2) = o := by
    intro requestId dd o ds1 ds2 hsilent hstep
    rw [runWaiter_append_silent requestId ds1 _ hsilent, runWaiter, hstep]
  refine ⟨?_, ?_, ?_, ⟨fun reason => by simp, fun r => by simp⟩, ?_, hfirst⟩
  · intro requestId ds1 ds2 rv r hsilent hrv
    refine hfirst requestId _ _ ds1 ds2 hsilent ?_
    simp [stepWaiter, hrv]
  · intro requestId js ds r hc hrv
    rw [runWaiter]
    simp only [stepWaiter, hc, hrv]
  · intro requestId ds1 ds2 hsilent
    exact hfirst requestId _ _ ds1 ds2 hsilent rfl
  · intro requestId jobId rv reason ds hne
    constructor
    · rw [runWaiter]
      simp [stepWaiter, hne]
    · rw [runWaiter]
      simp [stepWaiter, hne]

/-- Witness for C9: a waiter for job r1 skips a foreign completion and
resolves with the matching result that precedes the timer; and when the
timer fires first, it times out even though the job's own completion
arrives afterwards. -/
theorem waitForJob_spec_witness :
    runWaiter (str "r1")
      [Delivery.completed (str "other") none,
        Delivery.completed (str "r1") (some { success := true }),
        Delivery.timerFire] =
      WaiterOutcome.resolved { success := true } ∧
    runWaiter (str "r1")
      [Delivery.completed (str "other") (some { success := true }),
        Delivery.timerFire,
        Delivery.completed (str "r1") (some { success := true })] =
      WaiterOutcome.timedOut :=
  ⟨waitForJob_spec.1 (str "r1") [Delivery.completed (str "other") none]
      [Delivery.timerFire] (some { success := true }) { success := true }
      (by decide) rfl,
    waitForJob_spec.2.2.1 (str "r1")
      [Delivery.completed (str "other") (some { success := true })]
      [Delivery.completed (str "r1") (some { success := true })] (by decide)⟩
